import Mathlib

/-!
Verification development for `vpcctl`, a Linux VPC management tool (`src/vpcctl.py`).

The tool is shallowly embedded: its pure helpers (name derivation, address
planning) become Lean functions; its imperative operations become functions
threading an explicit kernel-state record (`World`) and a trace of the external
commands issued.  Python exception propagation is modelled explicitly: `sys.exit`
raises `SystemExit`, which an `except Exception` handler does not catch.
-/

namespace Vpcctl

/-! ## Python string primitives -/

/-- Python substring containment (`needle in haystack`) at the character-list level:
true iff `needle` occurs contiguously in the list. -/
def chIn (needle : List Char) : List Char → Bool
  | [] => needle.isEmpty
  | c :: cs => needle.isPrefixOf (c :: cs) || chIn needle cs

/-- Python's substring operator `needle in hay` on `str` values. -/
def pyIn (needle hay : String) : Bool := chIn needle.data hay.data

/-- Python's `str.upper()` for the ASCII strings the tool handles. -/
def pyUpper (s : String) : String := ⟨s.data.map Char.toUpper⟩

/-- Python's `str.lower()` for the ASCII strings the tool handles. -/
def pyLower (s : String) : String := ⟨s.data.map Char.toLower⟩

/-- Split a character list on a separator character (used to model
`str.splitlines()` and `str.split(sep)` for output without a trailing newline). -/
def splitOnChar (sep : Char) : List Char → List (List Char)
  | [] => [[]]
  | c :: cs =>
    if c = sep then [] :: splitOnChar sep cs
    else
      match splitOnChar sep cs with
      | [] => [[c]]
      | h :: t => (c :: h) :: t

/-- First whitespace-delimited word of a line (`line.split()[0]` for lines whose
first word is not empty). -/
def firstWord (l : List Char) : List Char :=
  l.takeWhile (fun c => !(c == ' ') && !(c == '\t'))

/-! ## NameDeriver (src/vpcctl.py lines 69-78) -/

/-- Derived bridge device name for a VPC (`f"br-{vpc_name}"`). -/
def get_bridge_name (vpc_name : String) : String := "br-" ++ vpc_name

/-- Derived namespace name for a subnet (`f"ns-{vpc_name}-{subnet_name}"`). -/
def get_namespace_name (vpc_name subnet_name : String) : String :=
  "ns-" ++ vpc_name ++ "-" ++ subnet_name

/-- Derived veth endpoint names (`f"veth-{subnet_name}-ns"`, `f"veth-{subnet_name}-br"`).
The `vpc_name` parameter is accepted but, as in the source, not used. -/
def get_veth_pair_names (vpc_name subnet_name : String) : String × String :=
  ("veth-" ++ subnet_name ++ "-ns", "veth-" ++ subnet_name ++ "-br")

/-! ## AddressPlanner (src/vpcctl.py lines 80-90)

`get_gateway_ip` delegates CIDR handling to Python's `ipaddress.ip_network`, an
external library; the embedding reproduces its IPv4 behaviour: dotted-quad
parsing with per-octet range checks, a prefix length of at most 32, and (with
the default `strict=True`) rejection of blocks whose host bits are not zero. -/

/-- Decimal value of a digit list. -/
def digitsToNat (l : List Char) : Nat :=
  l.foldl (fun n c => n * 10 + (c.toNat - 48)) 0

/-- Parse a non-empty all-digit character list as a decimal number. -/
def parseDec (l : List Char) : Option Nat :=
  if l ≠ [] ∧ l.all Char.isDigit then some (digitsToNat l) else none

/-- One octet of a dotted quad: decimal digits, value at most 255, no leading zero. -/
def parseOctet (l : List Char) : Option Nat :=
  match parseDec l with
  | some n => if n ≤ 255 ∧ (l.length = 1 ∨ l.head? ≠ some ('0')) then some n else none
  | none => none

/-- Numeric value of a dotted-quad IPv4 address. -/
def parseIPv4 (s : String) : Option Nat :=
  match (splitOnChar ('.') s.data).mapM parseOctet with
  | some [a, b, c, d] => some (((a * 256 + b) * 256 + c) * 256 + d)
  | _ => none

/-- An IPv4 network as produced by `ipaddress.ip_network`: network address (host bits
zero) as a 32-bit number, plus the prefix length. -/
structure IPv4Network where
  addr : Nat
  prefixlen : Nat
deriving DecidableEq, Repr

/-- Number of addresses in the block. -/
def blockSize (nw : IPv4Network) : Nat := 2 ^ (32 - nw.prefixlen)

/-- Python's `ipaddress.ip_network(cidr)` for IPv4 with the default `strict=True`:
`none` where Python raises `ValueError`. A bare address parses with prefix length 32. -/
def ip_network (cidr : String) : Option IPv4Network :=
  match splitOnChar ('/') cidr.data with
  | [a] => (parseIPv4 ⟨a⟩).map (fun ip => ⟨ip, 32⟩)
  | [a, p] =>
    match parseIPv4 ⟨a⟩, parseDec p with
    | some ip, some pl =>
      if pl ≤ 32 ∧ ip % 2 ^ (32 - pl) = 0 then some ⟨ip, pl⟩ else none
    | _, _ => none
  | _ => none

/-- Indexing `network[i]`: the i-th address of the block, `none` where Python raises
`IndexError`. -/
def netAddr (nw : IPv4Network) (i : Nat) : Option Nat :=
  if i < blockSize nw then some (nw.addr + i) else none

/-- The k-th usable address of a block, where usable addresses are the addresses
beyond the network address: the k-th usable address is `network[k]`. -/
def usableAddr (nw : IPv4Network) (k : Nat) : Option Nat := netAddr nw k

/-- Dotted-quad rendering of a 32-bit address (`str(network[i])`). -/
def ipToString (n : Nat) : String :=
  toString (n / 16777216 % 256) ++ "." ++ toString (n / 65536 % 256) ++ "." ++
    toString (n / 256 % 256) ++ "." ++ toString (n % 256)

/-- A Python exception escaping a statement: `SystemExit` (raised by `sys.exit`,
not caught by `except Exception`) or an ordinary `Exception` (caught by it). -/
inductive PyErr where
  | systemExit (code : Nat)
  | exception (msg : String)
deriving DecidableEq, Repr

/-- `get_gateway_ip` (src/vpcctl.py lines 80-90): returns the strings
`(str(network[1]), str(network[2]), with-prefix forms)`; any `ValueError` from
parsing or `IndexError` from indexing is caught and turned into `sys.exit(1)`. -/
def get_gateway_ip (cidr : String) : Except PyErr (String × String × String × String) :=
  match ip_network cidr with
  | none => .error (.systemExit 1)
  | some network =>
    match netAddr network 1, netAddr network 2 with
    | some g, some i =>
      let gateway_ip := ipToString g
      let interface_ip := ipToString i
      let gateway_ip_with_prefix := gateway_ip ++ "/" ++ toString network.prefixlen
      let interface_ip_with_prefix := interface_ip ++ "/" ++ toString network.prefixlen
      .ok (gateway_ip, interface_ip, gateway_ip_with_prefix, interface_ip_with_prefix)
    | _, _ => .error (.systemExit 1)

/-! ## Kernel-state model

The kernel is the external collaborator the tool drives (spec §2 CommandExecutor
and §6 kernel command surface).  `World` tracks the parts of live kernel state the
tool reads back or that the claims mention; `execCmd` gives semantics to exactly
the command shapes `vpcctl` issues. -/

/-- A rule of the host's FORWARD filter chain as built by the commands the tool
issues: optional in/out interface matches (possibly negated with "!"), optional
source/destination block and connection-state matches, and a target. -/
structure FwdRule where
  inIf : Option String := none
  inNeg : Bool := false
  outIf : Option String := none
  outNeg : Bool := false
  src : Option String := none
  dst : Option String := none
  ctstate : Option String := none
  target : String
deriving DecidableEq, Repr

/-- A rule of a namespace-local INPUT chain. -/
structure NsRule where
  inIf : Option String := none
  ctstate : Option String := none
  protocol : Option String := none
  dport : Option String := none
  target : String
deriving DecidableEq, Repr

/-- Build a FORWARD rule from interface matches, negation flags and a target. -/
def mkFwd (i : Option String) (iN : Bool) (o : Option String) (oN : Bool) (t : String) : FwdRule :=
  { inIf := i, inNeg := iN, outIf := o, outNeg := oN, target := t }

/-- Build a namespace INPUT rule from its optional attributes and a target. -/
def mkNs (i cst p d : Option String) (t : String) : NsRule :=
  { inIf := i, ctstate := cst, protocol := p, dport := d, target := t }

/-- An external command: its argument vector. -/
abbrev Cmd := List String

/-- Modelled kernel state: existing link devices, existing network namespaces, the
FORWARD chain (head first), per-device address lines, per-namespace INPUT chains,
and a fault-injection oracle `fails` marking commands that fail for reasons outside
the tracked state (the `ExternalCommandFailure` of spec §7). -/
structure World where
  links : List String := []
  netns : List String := []
  fwd : List FwdRule := []
  addrs : String → List String := fun _ => []
  nsIn : String → List NsRule := fun _ => []
  fails : Cmd → Bool := fun _ => false

/-- Remove the first occurrence of an element (the effect of `iptables -D` and of
deleting a named kernel object). -/
def eraseFirst {α : Type} [DecidableEq α] (a : α) : List α → List α
  | [] => []
  | x :: xs => if x = a then xs else x :: eraseFirst a xs

/-- Character stream listing one name per line (the output of `ip netns list`). -/
def joinNl : List String → List Char
  | [] => []
  | [s] => s.data
  | s :: t :: rest => s.data ++ ('\n') :: joinNl (t :: rest)

/-- Character stream joining address lines with blanks (the output of
`ip addr show dev B`, which the tool only searches as a substring). -/
def joinSp : List String → List Char
  | [] => []
  | [s] => s.data
  | s :: t :: rest => s.data ++ (' ') :: joinSp (t :: rest)

/-- Deletion of the first FORWARD rule matching a given rule specification;
reports failure when no rule matches (`iptables -D` on an absent rule). -/
def eraseFwd (w : World) (r : FwdRule) : World × Bool × String :=
  ({ w with fwd := eraseFirst r w.fwd }, decide (r ∈ w.fwd), "")

/-- The i-th token of a command (empty when out of range). -/
def arg (c : Cmd) (i : Nat) : String := c.getD i ""

/-- Semantics of the `iptables` invocations the tool issues on the host: `-I
FORWARD` inserts at the head of the chain (likewise `-I FORWARD 1`); `-D FORWARD`
removes the first matching rule and fails when none matches; NAT-table inserts and
the positioned public-subnet inserts are tracked only as successes (no claim
consults them). Dispatch is on the token count plus the option tokens, which are
literal in every command the tool builds. -/
def execIpt (w : World) (c : Cmd) : World × Bool × String :=
  if c.length = 9 ∧ arg c 1 = "-I" ∧ arg c 2 = "FORWARD" then
    ({ w with fwd := mkFwd (some (arg c 4)) false (some (arg c 6)) false (arg c 8) :: w.fwd },
      true, "")
  else if c.length = 10 ∧ arg c 1 = "-I" ∧ arg c 2 = "FORWARD" ∧ arg c 3 = "-i" then
    ({ w with fwd := mkFwd (some (arg c 4)) false (some (arg c 7)) true (arg c 9) :: w.fwd },
      true, "")
  else if c.length = 10 ∧ arg c 1 = "-I" ∧ arg c 2 = "FORWARD" ∧ arg c 3 = "-o" then
    ({ w with fwd := mkFwd (some (arg c 7)) true (some (arg c 4)) false (arg c 9) :: w.fwd },
      true, "")
  else if c.length = 9 ∧ arg c 1 = "-D" ∧ arg c 2 = "FORWARD" then
    eraseFwd w (mkFwd (some (arg c 4)) false (some (arg c 6)) false (arg c 8))
  else if c.length = 10 ∧ arg c 1 = "-D" ∧ arg c 2 = "FORWARD" ∧ arg c 3 = "-i" then
    eraseFwd w (mkFwd (some (arg c 4)) false (some (arg c 7)) true (arg c 9))
  else if c.length = 10 ∧ arg c 1 = "-D" ∧ arg c 2 = "FORWARD" ∧ arg c 3 = "-o" then
    eraseFwd w (mkFwd (some (arg c 7)) true (some (arg c 4)) false (arg c 9))
  else (w, true, "")

/-- Semantics of commands run inside a namespace (`ip netns exec NS ...`): they
fail when the namespace is absent; the namespace-local `iptables -A INPUT` appends
to the namespace's INPUT chain, `iptables -I INPUT 3` inserts at position 3
(failing when the chain holds fewer than two rules, as `iptables` does); the
in-namespace `ip` commands and the `-P` policy command succeed unchanged. -/
def execInNs (w : World) (n : String) (inner : Cmd) : World × Bool × String :=
  if n ∈ w.netns then
    if inner.length = 7 ∧ arg inner 0 = "iptables" ∧ arg inner 1 = "-A" then
      ({ w with nsIn := fun m => if m = n
          then w.nsIn n ++ [mkNs (some (arg inner 4)) none none none (arg inner 6)]
          else w.nsIn m }, true, "")
    else if inner.length = 9 ∧ arg inner 0 = "iptables" ∧ arg inner 1 = "-A" then
      ({ w with nsIn := fun m => if m = n
          then w.nsIn n ++ [mkNs none (some (arg inner 6)) none none (arg inner 8)]
          else w.nsIn m }, true, "")
    else if inner.length = 10 ∧ arg inner 0 = "iptables" ∧ arg inner 1 = "-I" ∧
        arg inner 3 = "3" then
      if 2 ≤ (w.nsIn n).length then
        let r := mkNs none none (some (arg inner 5)) (some (arg inner 7)) (arg inner 9)
        ({ w with nsIn := fun m => if m = n then (w.nsIn n).insertIdx 2 r else w.nsIn m },
          true, "")
      else (w, false, "")
    else (w, true, "")
  else (w, false, "")

/-- Semantics of the kernel command surface the tool issues, without injected
failures: read-only queries report live state; creation fails when the object
already exists, deletion when it is absent; `ip link set`, `sysctl` and commands no
claim consults leave the tracked state unchanged and succeed. -/
def execOk (w : World) (c : Cmd) : World × Bool × String :=
  if c.length = 6 ∧ arg c 0 = "ip" ∧ arg c 1 = "-br" ∧ arg c 2 = "link" ∧
      arg c 3 = "show" ∧ arg c 4 = "dev" then
    (if arg c 5 ∈ w.links then (w, true, arg c 5 ++ " UP bridge") else (w, false, ""))
  else if c.length = 7 ∧ arg c 0 = "ip" ∧ arg c 1 = "link" ∧ arg c 2 = "add" then
    (if arg c 4 ∈ w.links then (w, false, "")
     else ({ w with links := arg c 4 :: w.links }, true, ""))
  else if c.length = 9 ∧ arg c 0 = "ip" ∧ arg c 1 = "link" ∧ arg c 2 = "add" then
    (if arg c 3 ∈ w.links ∨ arg c 8 ∈ w.links then (w, false, "")
     else ({ w with links := arg c 3 :: arg c 8 :: w.links }, true, ""))
  else if c.length = 7 ∧ arg c 0 = "ip" ∧ arg c 1 = "link" ∧ arg c 2 = "delete" then
    ({ w with links := eraseFirst (arg c 4) w.links }, decide (arg c 4 ∈ w.links), "")
  else if c.length = 5 ∧ arg c 0 = "ip" ∧ arg c 1 = "link" ∧ arg c 2 = "delete" then
    ({ w with links := eraseFirst (arg c 4) w.links }, decide (arg c 4 ∈ w.links), "")
  else if arg c 0 = "ip" ∧ arg c 1 = "link" ∧ arg c 2 = "set" then (w, true, "")
  else if c.length = 3 ∧ arg c 0 = "ip" ∧ arg c 1 = "netns" ∧ arg c 2 = "list" then
    (w, true, ⟨joinNl w.netns⟩)
  else if c.length = 4 ∧ arg c 0 = "ip" ∧ arg c 1 = "netns" ∧ arg c 2 = "add" then
    (if arg c 3 ∈ w.netns then (w, false, "")
     else ({ w with
             netns := arg c 3 :: w.netns
             nsIn := fun m => if m = arg c 3 then [] else w.nsIn m }, true, ""))
  else if c.length = 4 ∧ arg c 0 = "ip" ∧ arg c 1 = "netns" ∧ arg c 2 = "delete" then
    ({ w with
       netns := eraseFirst (arg c 3) w.netns
       nsIn := fun m => if m = arg c 3 then [] else w.nsIn m }, decide (arg c 3 ∈ w.netns), "")
  else if arg c 0 = "ip" ∧ arg c 1 = "netns" ∧ arg c 2 = "exec" then
    execInNs w (arg c 3) (c.drop 4)
  else if c.length = 5 ∧ arg c 0 = "ip" ∧ arg c 1 = "addr" ∧ arg c 2 = "show" then
    (if arg c 4 ∈ w.links then (w, true, ⟨joinSp (w.addrs (arg c 4))⟩) else (w, false, ""))
  else if c.length = 6 ∧ arg c 0 = "ip" ∧ arg c 1 = "addr" ∧ arg c 2 = "add" then
    ({ w with addrs := fun m => if m = arg c 5 then (("inet ") ++ arg c 3) :: w.addrs m
        else w.addrs m }, true, "")
  else if arg c 0 = "iptables" then execIpt w c
  else (w, true, "")

/-- One command against the kernel: the `fails` oracle injects an external failure
first (spec §7 `ExternalCommandFailure`), otherwise `execOk` applies. -/
def execCmd (w : World) (c : Cmd) : World × Bool × String :=
  if w.fails c then (w, false, "") else execOk w c

/-- Process outcome of one CLI operation: normal completion, or `sys.exit(code)`. -/
inductive Outcome where
  | ok
  | exited (code : Nat)
deriving DecidableEq, Repr

/-- Embeds `run_cmd(cmd_list, check=True)` (src/vpcctl.py lines 27-65): execute the
command, append it to the trace; when `check` holds and the command failed, call
`sys.exit(1)` — that is, raise `SystemExit`. -/
def runCmd (check : Bool) (w : World) (tr : List Cmd) (c : Cmd) :
    Except (World × List Cmd × PyErr) (World × List Cmd × String) :=
  let r := execCmd w c
  if check && !r.2.1 then .error (r.1, tr ++ [c], .systemExit 1)
  else .ok (r.1, tr ++ [c], r.2.2)

/-- `run_cmd(cmd_list, check=False)`: never raises; returns state, trace, stdout. -/
def runCmdNC (w : World) (tr : List Cmd) (c : Cmd) : World × List Cmd × String :=
  let r := execCmd w c
  (r.1, tr ++ [c], r.2.2)

/-! ## create_vpc (src/vpcctl.py lines 106-128) -/

/-- The `try` body of `create_vpc` (lines 114-120), a sequence of checked commands. -/
def create_vpc_steps (w : World) (tr : List Cmd) (bridge_name : String) :
    Except (World × List Cmd × PyErr) (World × List Cmd) := do
  let (w, tr, _) ← runCmd true w tr ["ip", "link", "add", "name", bridge_name, "type", "bridge"]
  let (w, tr, _) ← runCmd true w tr ["ip", "link", "set", "dev", bridge_name, "up"]
  let (w, tr, _) ← runCmd true w tr
    ["sysctl", "-w", ("net.ipv4.conf.") ++ bridge_name ++ (".forwarding=1")]
  let (w, tr, _) ← runCmd true w tr ["sysctl", "-w", "net.ipv4.ip_forward=1"]
  let (w, tr, _) ← runCmd true w tr
    ["iptables", "-I", "FORWARD", "-i", bridge_name, "-o", bridge_name, "-j", "ACCEPT"]
  let (w, tr, _) ← runCmd true w tr
    ["iptables", "-I", "FORWARD", "-i", bridge_name, "!", "-o", bridge_name, "-j", "DROP"]
  let (w, tr, _) ← runCmd true w tr
    ["iptables", "-I", "FORWARD", "-o", bridge_name, "!", "-i", bridge_name, "-j", "DROP"]
  return (w, tr)

/-- `create_vpc`: existence probe and idempotent short-circuit, then the creation
sequence. The `except Exception` handler (bring the bridge down, delete it) is
reachable only for an ordinary `Exception`; a failing `run_cmd` raises `SystemExit`
(a `BaseException`), which propagates past `except Exception`, so the rollback
branch never runs for a failed kernel command. -/
def create_vpc (w : World) (vpc_name : String) : World × List Cmd × Outcome :=
  let bridge_name := get_bridge_name vpc_name
  let r0 := runCmdNC w [] ["ip", "-br", "link", "show", "dev", bridge_name]
  if pyIn bridge_name r0.2.2 then (r0.1, r0.2.1, .ok)
  else
    match create_vpc_steps r0.1 r0.2.1 bridge_name with
    | .ok (w1, tr1) => (w1, tr1, .ok)
    | .error (w1, tr1, .systemExit n) => (w1, tr1, .exited n)
    | .error (w1, tr1, .exception _) =>
      let r2 := runCmdNC w1 tr1 ["ip", "link", "set", "dev", bridge_name, "down"]
      let r3 := runCmdNC r2.1 r2.2.1 ["ip", "link", "delete", "dev", bridge_name, "type", "bridge"]
      (r3.1, r3.2.1, .exited 1)

/-- The intra-VPC accept rule (a): accept bridge→bridge (line 118). -/
def vpcAcceptRule (b : String) : FwdRule := mkFwd (some b) false (some b) false ("ACCEPT")

/-- The catch-all drop rule (b): drop bridge→anything-else (line 119). -/
def vpcDropOutRule (b : String) : FwdRule := mkFwd (some b) false (some b) true ("DROP")

/-- The catch-all drop rule (c): drop anything-else→bridge (line 120). -/
def vpcDropInRule (b : String) : FwdRule := mkFwd (some b) true (some b) false ("DROP")

/-- A routed packet as seen by the FORWARD chain. -/
structure Packet where
  inIf : String
  outIf : String
  src : Option String := none
  dst : Option String := none
  cstate : Option String := none

/-- Interface match with optional negation. -/
def ifaceMatch (dev : String) (pat : Option String) (neg : Bool) : Bool :=
  match pat with
  | none => true
  | some i => if neg then !(dev == i) else dev == i

/-- Whether a FORWARD rule matches a packet (an absent attribute is a wildcard). -/
def ruleMatches (r : FwdRule) (p : Packet) : Bool :=
  ifaceMatch p.inIf r.inIf r.inNeg && ifaceMatch p.outIf r.outIf r.outNeg &&
    (r.src.isNone || r.src == p.src) && (r.dst.isNone || r.dst == p.dst) &&
    (r.ctstate.isNone || r.ctstate == p.cstate)

/-- First-match evaluation of a filter chain (spec glossary: chains are evaluated
top to bottom, the first matching rule's target applies). -/
def evalFwd (chain : List FwdRule) (p : Packet) : Option String :=
  (chain.find? (fun r => ruleMatches r p)).map (fun r => r.target)

/-- Fault-injection world for C1: the command bringing the bridge up fails. -/
def faultyUpWorld : World :=
  { fails := fun c => decide (c = ["ip", "link", "set", "dev", "br-alpha", "up"]) }

/-! ## create_subnet (src/vpcctl.py lines 131-185) -/

/-- The `try` body of `create_subnet` (lines 148-177): namespace, veth pair,
attachment, gateway address on the bridge when absent, in-namespace addressing and
routing, namespace firewall defaults, and the NAT/forward rules of a public
subnet. -/
def create_subnet_steps (w : World) (tr : List Cmd)
    (bridge_name namespace_name veth_ns veth_br gateway_ip gateway_ip_with_prefix
      interface_ip_with_prefix cidr subnet_type : String)
    (internet_iface : Option String) :
    Except (World × List Cmd × PyErr) (World × List Cmd) := do
  let (w, tr, _) ← runCmd true w tr ["ip", "netns", "add", namespace_name]
  let (w, tr, _) ← runCmd true w tr
    ["ip", "link", "add", veth_ns, "type", "veth", "peer", "name", veth_br]
  let (w, tr, _) ← runCmd true w tr ["ip", "link", "set", veth_ns, "netns", namespace_name]
  let (w, tr, _) ← runCmd true w tr ["ip", "link", "set", veth_br, "master", bridge_name]
  let (w, tr, _) ← runCmd true w tr ["ip", "link", "set", veth_br, "up"]
  let (w, tr, stdout) ← runCmd true w tr ["ip", "addr", "show", "dev", bridge_name]
  let p ← if pyIn gateway_ip stdout then pure ((w, tr) : World × List Cmd) else do
    let (w2, tr2, _) ← runCmd true w tr
      ["ip", "addr", "add", gateway_ip_with_prefix, "dev", bridge_name]
    pure ((w2, tr2) : World × List Cmd)
  let w := p.1
  let tr := p.2
  let (w, tr, _) ← runCmd true w tr
    ["ip", "netns", "exec", namespace_name, "ip", "link", "set", "dev", "lo", "up"]
  let (w, tr, _) ← runCmd true w tr
    ["ip", "netns", "exec", namespace_name, "ip", "addr", "add", interface_ip_with_prefix,
      "dev", veth_ns]
  let (w, tr, _) ← runCmd true w tr
    ["ip", "netns", "exec", namespace_name, "ip", "link", "set", "dev", veth_ns, "up"]
  let (w, tr, _) ← runCmd true w tr
    ["ip", "netns", "exec", namespace_name, "ip", "route", "add", "default", "via", gateway_ip]
  let (w, tr, _) ← runCmd true w tr
    ["ip", "netns", "exec", namespace_name, "iptables", "-P", "INPUT", "DROP"]
  let (w, tr, _) ← runCmd true w tr
    ["ip", "netns", "exec", namespace_name, "iptables", "-A", "INPUT", "-i", "lo",
      "-j", "ACCEPT"]
  let (w, tr, _) ← runCmd true w tr
    ["ip", "netns", "exec", namespace_name, "iptables", "-A", "INPUT", "-m", "state",
      "--state", "RELATED,ESTABLISHED", "-j", "ACCEPT"]
  if subnet_type = "public" then
    let ifname := internet_iface.getD ""
    let (w, tr, _) ← runCmd true w tr
      ["iptables", "-t", "nat", "-I", "POSTROUTING", "-s", cidr, "-o", ifname,
        "-j", "MASQUERADE"]
    let (w, tr, _) ← runCmd true w tr
      ["iptables", "-I", "FORWARD", "1", "-i", bridge_name, "-o", ifname, "-s", cidr,
        "-j", "ACCEPT"]
    let (w, tr, _) ← runCmd true w tr
      ["iptables", "-I", "FORWARD", "1", "-i", ifname, "-o", bridge_name, "-d", cidr,
        "-m", "state", "--state", "RELATED,ESTABLISHED", "-j", "ACCEPT"]
    return (w, tr)
  else
    return (w, tr)

/-- `create_subnet` (src/vpcctl.py lines 131-185): fail fast when a public subnet
lacks `--internet-iface`; derive names and plan addresses (CIDR validation happens
before any command is issued); probe `ip netns list` and no-op when the derived
namespace name occurs as a substring (Python `in`) of the listing; otherwise run
the creation sequence.  As in `create_vpc`, the `except Exception` cleanup (delete
namespace, delete bridge-side veth) is unreachable for failed kernel commands,
which raise `SystemExit`. -/
def create_subnet (w : World) (vpc_name subnet_name cidr subnet_type : String)
    (internet_iface : Option String) : World × List Cmd × Outcome :=
  if subnet_type = "public" ∧ internet_iface = none then (w, [], .exited 1)
  else
    let bridge_name := get_bridge_name vpc_name
    let namespace_name := get_namespace_name vpc_name subnet_name
    let vp := get_veth_pair_names vpc_name subnet_name
    match get_gateway_ip cidr with
    | .error _ => (w, [], .exited 1)
    | .ok (gateway_ip, _interface_ip, gateway_ip_with_prefix, interface_ip_with_prefix) =>
      let r0 := runCmdNC w [] ["ip", "netns", "list"]
      if pyIn namespace_name r0.2.2 then (r0.1, r0.2.1, .ok)
      else
        match create_subnet_steps r0.1 r0.2.1 bridge_name namespace_name vp.1 vp.2
            gateway_ip gateway_ip_with_prefix interface_ip_with_prefix cidr
            subnet_type internet_iface with
        | .ok (w1, tr1) => (w1, tr1, .ok)
        | .error (w1, tr1, .systemExit n) => (w1, tr1, .exited n)
        | .error (w1, tr1, .exception _) =>
          let r2 := runCmdNC w1 tr1 ["ip", "netns", "delete", namespace_name]
          let r3 := runCmdNC r2.1 r2.2.1 ["ip", "link", "delete", "dev", vp.2]
          (r3.1, r3.2.1, .exited 1)

/-- World for the C5 counterexample: a namespace whose name strictly extends the
derived name `ns-v-s` exists, while `ns-v-s` itself does not. -/
def superstringNsWorld : World := { links := ["br-v"], netns := ["ns-v-sfoo"] }

/-! ## apply_rules (src/vpcctl.py lines 190-255) -/

/-- A parsed ingress rule of a security policy (spec §3 SecurityPolicy): a `none`
field models a JSON key that is absent, on which Python raises `KeyError`. -/
structure IngressRule where
  port : Option Nat := none
  protocol : Option String := none
  action : Option String := none
deriving DecidableEq, Repr

/-- A decoded policy document with its required `vpc`/`subnet` keys and ingress
list.  Policy-file reading and JSON decoding are external collaborators (spec §6);
a policy missing `vpc` or `subnet` exits before any command and carries no ingress
behaviour to verify. -/
structure SecurityPolicy where
  vpc : String
  subnet : String
  ingress : List IngressRule
deriving DecidableEq, Repr

/-- The iptables insert issued for one validated ingress rule (lines 242-248):
position 3 of the namespace INPUT chain, after the loopback and established
defaults. -/
def rule_cmd (namespace_name protocol : String) (port : Nat) (action : String) : Cmd :=
  ["ip", "netns", "exec", namespace_name, "iptables", "-I", "INPUT", "3", "-p", protocol,
    "--dport", toString port, "-j", action]

/-- The loop of `apply_rules` (lines 228-253): a rule with a missing key (KeyError)
or an unrecognized action is skipped with a warning; a valid rule is inserted via
`run_cmd` with `check=True`, whose failure raises `SystemExit` and kills the
process. -/
def apply_rules_loop (namespace_name : String) :
    World → List Cmd → List IngressRule → World × List Cmd × Outcome
  | w, tr, [] => (w, tr, .ok)
  | w, tr, r :: rest =>
    match r.port, r.protocol, r.action with
    | some port, some proto, some act =>
      let protocol := pyLower proto
      let action := pyUpper act
      if action = "ACCEPT" ∨ action = "DENY" then
        match runCmd true w tr (rule_cmd namespace_name protocol port action) with
        | .ok (w2, tr2, _) => apply_rules_loop namespace_name w2 tr2 rest
        | .error (w2, tr2, _) => (w2, tr2, .exited 1)
      else apply_rules_loop namespace_name w tr rest
    | _, _, _ => apply_rules_loop namespace_name w tr rest

/-- `apply_rules` (lines 190-255) on an already-decoded policy document. -/
def apply_rules (w : World) (policy : SecurityPolicy) : World × List Cmd × Outcome :=
  let namespace_name := get_namespace_name policy.vpc policy.subnet
  apply_rules_loop namespace_name w [] policy.ingress

/-- An ingress rule whose required keys are all present and whose upper-cased
action is recognized. -/
def validRule (r : IngressRule) : Bool :=
  match r.port, r.protocol, r.action with
  | some _, some _, some a => decide (pyUpper a = "ACCEPT" ∨ pyUpper a = "DENY")
  | _, _, _ => false

/-- The INPUT-chain rule a validated ingress rule becomes. -/
def nsRuleOf (r : IngressRule) : NsRule :=
  mkNs none none (some (pyLower (r.protocol.getD ("")))) (some (toString (r.port.getD 0)))
    (pyUpper (r.action.getD ("")))

/-- The insert command a validated ingress rule becomes. -/
def cmdOf (namespace_name : String) (r : IngressRule) : Cmd :=
  rule_cmd namespace_name (pyLower (r.protocol.getD (""))) (r.port.getD 0)
    (pyUpper (r.action.getD ("")))

/-- The loopback-accept default installed at subnet creation (line 169). -/
def loRule : NsRule := mkNs (some ("lo")) none none none ("ACCEPT")

/-- The established-accept default installed at subnet creation (line 171). -/
def estRule : NsRule := mkNs none (some ("RELATED,ESTABLISHED")) none none ("ACCEPT")

/-- World for the apply-rules witnesses: the namespace of subnet `web` in VPC `a`
exists and carries the two firewall defaults installed at creation time. -/
def rulesWorld : World :=
  { netns := ["ns-a-web"]
    nsIn := fun m => if m = "ns-a-web" then [loRule, estRule] else [] }

/-- A policy mixing one valid rule, one with an unrecognized action, one with a
missing port key, and a second valid rule. -/
def polMixed : SecurityPolicy :=
  { vpc := "a"
    subnet := "web"
    ingress := [{ port := some 22, protocol := some ("tcp"), action := some ("accept") },
      { port := some 23, protocol := some ("tcp"), action := some ("reject") },
      { protocol := some ("udp"), action := some ("accept") },
      { port := some 443, protocol := some ("tcp"), action := some ("ACCEPT") }] }

/-- A policy with two valid ingress rules. -/
def polTwo : SecurityPolicy :=
  { vpc := "a"
    subnet := "web"
    ingress := [{ port := some 22, protocol := some ("tcp"), action := some ("accept") },
      { port := some 80, protocol := some ("tcp"), action := some ("deny") }] }

/-! ## find_subnets_for_vpc and delete_vpc (src/vpcctl.py lines 92-102, 279-331) -/

/-- A well-formed kernel object name: non-empty and free of newlines, blanks and
tabs, as the kernel enforces for interface and namespace names. -/
def cleanName (s : String) : Prop :=
  s.data ≠ [] ∧ ∀ c ∈ s.data, c ≠ ('\n') ∧ c ≠ (' ') ∧ c ≠ ('\t')

/-- Pure part of `find_subnets_for_vpc` (lines 95-102): split the listing into
lines, take each line's first word, keep the names starting with `ns-<vpc>-`, and
pair the trailing subnet name with the namespace name.  (Python's
`line.split()[0]` would raise on an empty line; `ip netns list` emits none.) -/
def parse_netns_lines (vpc_name : String) (stdout : String) : List (String × String) :=
  if stdout = "" then []
  else
    (splitOnChar ('\n') stdout.data).filterMap (fun line =>
      let ns_name := firstWord line
      let ns_pre := ("ns-" ++ vpc_name ++ "-").data
      if ns_pre.isPrefixOf ns_name then
        some (⟨ns_name.drop ns_pre.length⟩, ⟨ns_name⟩)
      else none)

/-- `find_subnets_for_vpc` (lines 92-102): list the namespaces (a checked command,
`run_cmd`'s default) and filter by the `ns-<vpc>-` prefix. -/
def find_subnets_for_vpc (w : World) (tr : List Cmd) (vpc_name : String) :
    Except (World × List Cmd × PyErr) (World × List Cmd × List (String × String)) := do
  let (w, tr, stdout) ← runCmd true w tr ["ip", "netns", "list"]
  return (w, tr, parse_netns_lines vpc_name stdout)

/-- The namespace-deletion loop of `delete_vpc` (lines 286-291); each deletion is
best-effort (`check=False`). -/
def delete_ns_loop : List (String × String) → World × List Cmd → World × List Cmd
  | [], q => q
  | sn :: rest, q =>
    let r := runCmdNC q.1 q.2 ["ip", "netns", "delete", sn.2]
    delete_ns_loop rest (r.1, r.2.1)

/-- `delete_all_peering_for_vpc` (lines 329-331): an unimplemented placeholder that
logs a warning and issues no command at all. -/
def delete_all_peering_for_vpc (w : World) (tr : List Cmd) (bridge_name : String) :
    World × List Cmd := (w, tr)

/-- `delete_vpc` (lines 279-300): discover subnets by namespace prefix, delete each
namespace, remove the three VPC isolation rules, call the peering-cleanup
placeholder, bring the bridge down and delete it; every removal is best-effort. -/
def delete_vpc (w : World) (vpc_name : String) : World × List Cmd × Outcome :=
  let bridge_name := get_bridge_name vpc_name
  match find_subnets_for_vpc w [] vpc_name with
  | .error (w1, tr1, .systemExit n) => (w1, tr1, .exited n)
  | .error (w1, tr1, .exception _) => (w1, tr1, .exited 1)
  | .ok (w1, tr1, subnets) =>
    let q := delete_ns_loop subnets (w1, tr1)
    let r := runCmdNC q.1 q.2
      ["iptables", "-D", "FORWARD", "-i", bridge_name, "-o", bridge_name, "-j", "ACCEPT"]
    let r := runCmdNC r.1 r.2.1
      ["iptables", "-D", "FORWARD", "-i", bridge_name, "!", "-o", bridge_name, "-j", "DROP"]
    let r := runCmdNC r.1 r.2.1
      ["iptables", "-D", "FORWARD", "-o", bridge_name, "!", "-i", bridge_name, "-j", "DROP"]
    let q2 := delete_all_peering_for_vpc r.1 r.2.1 bridge_name
    let r := runCmdNC q2.1 q2.2 ["ip", "link", "set", "dev", bridge_name, "down"]
    let r := runCmdNC r.1 r.2.1
      ["ip", "link", "delete", "dev", bridge_name, "type", "bridge"]
    (r.1, r.2.1, .ok)

/-- World for the C4 counterexample: VPC `a` with one subnet namespace, its three
isolation rules, and one peering rule accepting br-a→br-b traffic. -/
def peeredWorld : World :=
  { links := ["br-a"]
    netns := ["ns-a-web"]
    fwd := [mkFwd (some ("br-a")) false (some ("br-b")) false ("ACCEPT"),
      vpcAcceptRule ("br-a"), vpcDropOutRule ("br-a"), vpcDropInRule ("br-a")] }

/-! ## Helper lemmas on strings and lists -/

lemma chIn_iff (needle hay : List Char) : chIn needle hay = true ↔ needle <:+: hay := by
  induction hay with
  | nil =>
    simp [chIn, List.isEmpty_iff, List.infix_nil]
  | cons c cs ih =>
    simp only [chIn, Bool.or_eq_true, List.isPrefixOf_iff_prefix, ih]
    constructor
    · rintro (h | h)
      · exact h.isInfix
      · exact List.infix_cons h
    · intro h
      rcases h with ⟨s, t, hst⟩
      cases s with
      | nil => exact Or.inl ⟨t, by simpa using hst⟩
      | cons x xs =>
        right
        refine ⟨xs, t, ?_⟩
        have := hst
        simp only [List.cons_append, List.cons.injEq] at this
        exact this.2

lemma pyIn_iff (needle hay : String) :
    pyIn needle hay = true ↔ needle.data <:+: hay.data := chIn_iff _ _

lemma pyIn_of_nonempty_nil (s : String) (h : s.data ≠ []) (t : String)
    (ht : t.data = []) : pyIn s t = false := by
  rw [← Bool.not_eq_true, pyIn_iff, ht, List.infix_nil]
  exact h

lemma pyIn_self_append (s t : String) : pyIn s (s ++ t) = true := by
  rw [pyIn_iff, String.data_append]
  exact (List.prefix_append _ _).isInfix

lemma pow2_ge_four {m : Nat} (h : 3 ≤ 2 ^ m) : 4 ≤ 2 ^ m := by
  match m with
  | 0 => norm_num at h
  | 1 => norm_num at h
  | n + 2 =>
    calc 4 = 2 ^ 2 := rfl
    _ ≤ 2 ^ (n + 2) := Nat.pow_le_pow_right (by norm_num) (by omega)

lemma append_sep_inj {l1 l2 r1 r2 : List Char}
    (h1 : ('-') ∉ l1) (h2 : ('-') ∉ l2)
    (h : l1 ++ ('-') :: r1 = l2 ++ ('-') :: r2) : l1 = l2 ∧ r1 = r2 := by
  induction l1 generalizing l2 with
  | nil =>
    cases l2 with
    | nil => simpa using h
    | cons c cs =>
      exfalso
      simp only [List.nil_append, List.cons_append, List.cons.injEq] at h
      exact h2 (by simp [← h.1])
  | cons a as ih =>
    cases l2 with
    | nil =>
      exfalso
      simp only [List.cons_append, List.nil_append, List.cons.injEq] at h
      exact h1 (by simp [h.1])
    | cons c cs =>
      simp only [List.cons_append, List.cons.injEq] at h
      have h1' : ('-') ∉ as := fun hm => h1 (List.mem_cons_of_mem _ hm)
      have h2' : ('-') ∉ cs := fun hm => h2 (List.mem_cons_of_mem _ hm)
      obtain ⟨he, hr⟩ := ih h1' h2' h.2
      exact ⟨by rw [h.1, he], hr⟩

/-! ## Lemmas about create_vpc -/

lemma brName_data (v : String) : (get_bridge_name v).data = 'b' :: 'r' :: ('-') :: v.data := by
  have h : ("br-").data = ['b', 'r', ('-')] := rfl
  simp [get_bridge_name, String.data_append, h]

lemma pyIn_brName_empty (v : String) : pyIn (get_bridge_name v) ("") = false := by
  refine pyIn_of_nonempty_nil _ ?_ _ rfl
  rw [brName_data]
  exact fun h => List.noConfusion h

/-- Successful fresh creation: with no injected failures and the bridge absent,
`create_vpc` creates the bridge and pushes the three filter rules onto the head of
the FORWARD chain, rule (c) ending up first and the accept rule (a) last. -/
lemma create_vpc_fresh (w : World) (v : String)
    (hF : ∀ c, w.fails c = false) (hB : get_bridge_name v ∉ w.links) :
    create_vpc w v =
      ({ w with
         links := get_bridge_name v :: w.links
         fwd := vpcDropInRule (get_bridge_name v) :: vpcDropOutRule (get_bridge_name v) ::
           vpcAcceptRule (get_bridge_name v) :: w.fwd },
       [["ip", "-br", "link", "show", "dev", get_bridge_name v],
        ["ip", "link", "add", "name", get_bridge_name v, "type", "bridge"],
        ["ip", "link", "set", "dev", get_bridge_name v, "up"],
        ["sysctl", "-w", ("net.ipv4.conf.") ++ get_bridge_name v ++ (".forwarding=1")],
        ["sysctl", "-w", "net.ipv4.ip_forward=1"],
        ["iptables", "-I", "FORWARD", "-i", get_bridge_name v, "-o", get_bridge_name v,
          "-j", "ACCEPT"],
        ["iptables", "-I", "FORWARD", "-i", get_bridge_name v, "!", "-o", get_bridge_name v,
          "-j", "DROP"],
        ["iptables", "-I", "FORWARD", "-o", get_bridge_name v, "!", "-i", get_bridge_name v,
          "-j", "DROP"]], .ok) := by
  simp [create_vpc, create_vpc_steps, runCmd, runCmdNC, execCmd, execOk, execIpt, arg, hF,
    pyIn_brName_empty, hB, vpcAcceptRule, vpcDropOutRule, vpcDropInRule, Bind.bind, Except.bind,
    Pure.pure, Except.pure]

/-! ## Lemmas about namespace listings and the planner output -/

lemma infix_joinNl {n : String} : ∀ {l : List String}, n ∈ l → n.data <:+: joinNl l := by
  intro l
  induction l with
  | nil => intro h; cases h
  | cons s rest ih =>
    intro h
    cases rest with
    | nil =>
      have hs : n = s := by simpa using h
      subst hs
      exact List.infix_refl _
    | cons t r2 =>
      rcases List.mem_cons.mp h with he | hm
      · subst he
        exact ⟨[], ('\n') :: joinNl (t :: r2), by simp [joinNl]⟩
      · obtain ⟨u, vv, huv⟩ := ih hm
        exact ⟨s.data ++ ('\n') :: u, vv, by simp [joinNl, ← huv]⟩

lemma pyIn_joinNl_of_mem {n : String} {l : List String} (h : n ∈ l) :
    pyIn n ⟨joinNl l⟩ = true := (pyIn_iff _ _).mpr (infix_joinNl h)

lemma not_mem_of_not_pyIn {n : String} {l : List String}
    (h : pyIn n ⟨joinNl l⟩ = false) : n ∉ l := by
  intro hm
  rw [pyIn_joinNl_of_mem hm] at h
  cases h

lemma ipToString_data_ne_nil (n : Nat) : (ipToString n).data ≠ [] := by
  intro h
  have hdot : ('.') ∈ (ipToString n).data := by
    have hd : ("." : String).data = [('.')] := rfl
    rw [ipToString]
    simp [String.data_append, hd]
  rw [h] at hdot
  cases hdot

lemma get_gateway_ip_ok_shape {cidr g i2 gp ip2 : String}
    (h : get_gateway_ip cidr = .ok (g, i2, gp, ip2)) : ∃ n, g = ipToString n := by
  cases hn : ip_network cidr with
  | none => simp [get_gateway_ip, hn] at h
  | some nw =>
    cases h1 : netAddr nw 1 with
    | none => simp [get_gateway_ip, hn, h1] at h
    | some gn =>
      cases h2 : netAddr nw 2 with
      | none => simp [get_gateway_ip, hn, h1, h2] at h
      | some m =>
        simp only [get_gateway_ip, hn, h1, h2, Except.ok.injEq, Prod.mk.injEq] at h
        exact ⟨gn, h.1.symm⟩

/-! ## Lemmas about apply_rules -/

/-- One pass of the apply-rules loop on a healthy namespace: the outcome is ok, the
issued commands are exactly the inserts of the valid rules in policy order, each
valid rule is inserted at position 3 of the namespace INPUT chain, and the set of
namespaces is untouched. -/
lemma apply_rules_loop_spec (nn : String) :
    ∀ (rs : List IngressRule) (w : World) (tr : List Cmd),
    (∀ c, w.fails c = false) → nn ∈ w.netns → 2 ≤ (w.nsIn nn).length →
    (apply_rules_loop nn w tr rs).2.2 = .ok ∧
    (apply_rules_loop nn w tr rs).2.1 = tr ++ (rs.filter validRule).map (cmdOf nn) ∧
    (apply_rules_loop nn w tr rs).1.nsIn nn =
      (rs.filter validRule).foldl (fun ch r => ch.insertIdx 2 (nsRuleOf r)) (w.nsIn nn) ∧
    (apply_rules_loop nn w tr rs).1.netns = w.netns := by
  intro rs
  induction rs with
  | nil =>
    intro w tr hF hNs hLen
    simp [apply_rules_loop]
  | cons r rest ih =>
    intro w tr hF hNs hLen
    rcases hp : r.port with _ | port <;> rcases hpr : r.protocol with _ | proto <;>
      rcases ha : r.action with _ | act
    all_goals try (
      have hval : validRule r = false := by simp [validRule, hp, hpr, ha]
      simp only [apply_rules_loop, hp, hpr, ha]
      rw [List.filter_cons_of_neg (by simp [hval])]
      exact ih w tr hF hNs hLen)
    by_cases hact : pyUpper act = "ACCEPT" ∨ pyUpper act = "DENY"
    · have hval : validRule r = true := by simp [validRule, hp, hpr, ha, hact]
      have hw2 : runCmd true w tr (rule_cmd nn (pyLower proto) port (pyUpper act)) =
          .ok ({ w with nsIn := fun m => if m = nn
              then (w.nsIn nn).insertIdx 2 (nsRuleOf r) else w.nsIn m },
            tr ++ [rule_cmd nn (pyLower proto) port (pyUpper act)], "") := by
        simp [runCmd, execCmd, execOk, execInNs, arg, rule_cmd, hF, hNs, hLen, nsRuleOf,
          hp, hpr, ha]
      have hcmd : rule_cmd nn (pyLower proto) port (pyUpper act) = cmdOf nn r := by
        simp [cmdOf, rule_cmd, hp, hpr, ha]
      simp only [apply_rules_loop, hp, hpr, ha, if_pos hact, hw2]
      have hupd : ({ w with nsIn := fun m => if m = nn
          then (w.nsIn nn).insertIdx 2 (nsRuleOf r) else w.nsIn m } : World).nsIn nn =
          (w.nsIn nn).insertIdx 2 (nsRuleOf r) := by simp
      have hLen2 : 2 ≤ (({ w with nsIn := fun m => if m = nn
          then (w.nsIn nn).insertIdx 2 (nsRuleOf r) else w.nsIn m } : World).nsIn nn).length := by
        rw [hupd, List.length_insertIdx 2 _ (by omega)]
        omega
      have ih2 := ih ({ w with nsIn := fun m => if m = nn
          then (w.nsIn nn).insertIdx 2 (nsRuleOf r) else w.nsIn m })
        (tr ++ [rule_cmd nn (pyLower proto) port (pyUpper act)]) hF hNs hLen2
      refine ⟨ih2.1, ?_, ?_, ih2.2.2.2⟩
      · rw [ih2.2.1, List.filter_cons_of_pos (by simp [hval]), List.map_cons, hcmd,
          List.append_assoc]
        rfl
      · rw [ih2.2.2.1, hupd, List.filter_cons_of_pos (by simp [hval]), List.foldl_cons]
    · have hval : validRule r = false := by
        simp only [validRule, hp, hpr, ha]
        simpa using hact
      simp only [apply_rules_loop, hp, hpr, ha, if_neg hact]
      rw [List.filter_cons_of_neg (by simp [hval])]
      exact ih w tr hF hNs hLen

/-- Repeated insertion at position 3 of a chain with two fixed head rules places
the inserted rules after the head in reverse insertion order. -/
lemma foldl_insertIdx_two (a b : NsRule) :
    ∀ (rs : List IngressRule) (t : List NsRule),
    rs.foldl (fun ch r => List.insertIdx 2 (nsRuleOf r) ch) (a :: b :: t) =
      a :: b :: ((rs.map nsRuleOf).reverse ++ t) := by
  intro rs
  induction rs with
  | nil => intro t; simp
  | cons r rest ih =>
    intro t
    simp only [List.foldl_cons]
    have h2 : List.insertIdx 2 (nsRuleOf r) (a :: b :: t) = a :: b :: nsRuleOf r :: t := rfl
    rw [h2, ih (nsRuleOf r :: t)]
    simp

/-! ## Lemmas about namespace discovery and best-effort deletion -/

lemma splitOnChar_sep_free {sep : Char} : ∀ {x : List Char}, sep ∉ x →
    splitOnChar sep x = [x] := by
  intro x
  induction x with
  | nil => intro _; rfl
  | cons c cs ih =>
    intro h
    have hc : ¬ (c = sep) := fun he => h (by rw [he]; exact List.mem_cons_self _ _)
    have hcs : sep ∉ cs := fun hm => h (List.mem_cons_of_mem _ hm)
    rw [splitOnChar, if_neg hc, ih hcs]

lemma splitOnChar_append_sep {sep : Char} : ∀ {x : List Char} (r : List Char), sep ∉ x →
    splitOnChar sep (x ++ sep :: r) = x :: splitOnChar sep r := by
  intro x
  induction x with
  | nil => intro r _; simp [splitOnChar]
  | cons c cs ih =>
    intro r h
    have hc : ¬ (c = sep) := fun he => h (by rw [he]; exact List.mem_cons_self _ _)
    have hcs : sep ∉ cs := fun hm => h (List.mem_cons_of_mem _ hm)
    rw [List.cons_append, splitOnChar, if_neg hc, ih r hcs]

lemma joinNl_ne_nil : ∀ {l : List String}, l ≠ [] → (∀ n ∈ l, cleanName n) →
    joinNl l ≠ [] := by
  intro l
  match l with
  | [] => intro h _; exact absurd rfl h
  | [s] =>
    intro _ hc
    have hs := (hc s (by simp)).1
    simpa [joinNl] using hs
  | s :: t :: rest =>
    intro _ _
    simp [joinNl]

lemma splitOnChar_joinNl : ∀ {l : List String}, l ≠ [] →
    (∀ n ∈ l, cleanName n) → splitOnChar ('\n') (joinNl l) = l.map String.data := by
  intro l
  induction l with
  | nil => intro h _; exact absurd rfl h
  | cons s rest ih =>
    intro _ hc
    have hnl : ('\n') ∉ s.data := fun hm => ((hc s (by simp)).2 _ hm).1 rfl
    cases rest with
    | nil => simp [joinNl, splitOnChar_sep_free hnl]
    | cons t r2 =>
      have ih2 := ih (by simp) (fun n hn => hc n (List.mem_cons_of_mem _ hn))
      rw [show joinNl (s :: t :: r2) = s.data ++ ('\n') :: joinNl (t :: r2) from rfl,
        splitOnChar_append_sep _ hnl, ih2]
      rfl

lemma firstWord_eq_self : ∀ {x : List Char}, (∀ c ∈ x, c ≠ (' ') ∧ c ≠ ('\t')) →
    firstWord x = x := by
  intro x
  induction x with
  | nil => intro _; rfl
  | cons c cs ih =>
    intro h
    have hc := h c (List.mem_cons_self _ _)
    have hp : (!(c == ' ') && !(c == '\t')) = true := by
      simp only [Bool.and_eq_true, Bool.not_eq_true']
      exact ⟨by simpa using hc.1, by simpa using hc.2⟩
    rw [firstWord, List.takeWhile_cons, hp]
    show c :: firstWord cs = c :: cs
    rw [ih (fun d hd => h d (List.mem_cons_of_mem _ hd))]

lemma parse_netns_lines_joinNl (v : String) : ∀ {l : List String},
    (∀ n ∈ l, cleanName n) →
    parse_netns_lines v ⟨joinNl l⟩ =
      l.filterMap (fun n => if (("ns-" ++ v ++ "-").data).isPrefixOf n.data then
        some (⟨n.data.drop (("ns-" ++ v ++ "-").data).length⟩, n) else none) := by
  intro l hc
  cases hl : l with
  | nil => simp [parse_netns_lines, joinNl]
  | cons s rest =>
    have hcl : ∀ n ∈ l, cleanName n := hc
    subst hl
    have hne : (⟨joinNl (s :: rest)⟩ : String) ≠ "" := by
      intro h
      exact joinNl_ne_nil (by simp) hcl (congrArg String.data h)
    rw [parse_netns_lines, if_neg hne]
    show (splitOnChar ('\n') (joinNl (s :: rest))).filterMap _ = _
    rw [splitOnChar_joinNl (by simp) hcl, List.filterMap_map]
    apply List.filterMap_congr
    intro n hn
    have hclean := hcl n hn
    simp only [Function.comp]
    rw [firstWord_eq_self (fun c hcm => ⟨(hclean.2 c hcm).2.1, (hclean.2 c hcm).2.2⟩)]

lemma eraseFirst_of_not_mem {α : Type} [DecidableEq α] {a : α} :
    ∀ {l : List α}, a ∉ l → eraseFirst a l = l := by
  intro l
  induction l with
  | nil => intro _; rfl
  | cons x xs ih =>
    intro h
    have hx : ¬ (x = a) := fun he => h (by rw [← he]; exact List.mem_cons_self _ _)
    rw [eraseFirst, if_neg hx, ih (fun hm => h (List.mem_cons_of_mem _ hm))]

lemma mem_eraseFirst_of_ne {α : Type} [DecidableEq α] {b a : α} (hne : b ≠ a) :
    ∀ {l : List α}, b ∈ l → b ∈ eraseFirst a l := by
  intro l
  induction l with
  | nil => intro h; cases h
  | cons x xs ih =>
    intro h
    rw [eraseFirst]
    by_cases hx : x = a
    · rw [if_pos hx]
      rcases List.mem_cons.mp h with he | hm
      · exact absurd (he.trans hx) hne
      · exact hm
    · rw [if_neg hx]
      rcases List.mem_cons.mp h with he | hm
      · rw [he]; exact List.mem_cons_self _ _
      · exact List.mem_cons_of_mem _ (ih hm)

lemma eraseFirst_eq_filter (a : String) : ∀ {l : List String}, l.Nodup →
    eraseFirst a l = l.filter (fun x => !(x == a)) := by
  intro l
  induction l with
  | nil => intro _; rfl
  | cons x xs ih =>
    intro h
    rw [List.nodup_cons] at h
    rw [eraseFirst, List.filter_cons]
    by_cases hx : x = a
    · rw [if_pos hx]
      have hb : (!(x == a)) = false := by simp [hx]
      rw [hb]
      simp only [Bool.false_eq_true, if_false]
      symm
      apply List.filter_eq_self.mpr
      intro b hb2
      simp only [Bool.not_eq_true', beq_eq_false_iff_ne, ne_eq]
      intro he
      rw [he, ← hx] at hb2
      exact h.1 hb2
    · rw [if_neg hx]
      have hb : (!(x == a)) = true := by simp [hx]
      rw [hb]
      simp only [if_true]
      rw [ih h.2]

lemma foldl_eraseFirst_eq_filter : ∀ (ds : List String) {acc : List String}, acc.Nodup →
    ds.foldl (fun a n => eraseFirst n a) acc =
      acc.filter (fun a => !(ds.contains a)) := by
  intro ds
  induction ds with
  | nil =>
    intro acc _
    simp
  | cons d rest ih =>
    intro acc h
    simp only [List.foldl_cons]
    rw [eraseFirst_eq_filter d h, ih (h.filter _), List.filter_filter]
    apply List.filter_congr
    intro a _
    simp only [List.contains_cons, Bool.not_or, Bool.not_eq_true']
    rw [Bool.and_comm]

lemma filter_not_contains_filter (p : String → Bool) {l : List String} :
    l.filter (fun a => !((l.filter p).contains a)) = l.filter (fun a => !(p a)) := by
  apply List.filter_congr
  intro a ha
  have hiff : (l.filter p).contains a = p a := by
    by_cases hp : p a = true
    · rw [hp]
      exact List.elem_eq_true_of_mem (List.mem_filter.mpr ⟨ha, hp⟩)
    · have hp' : p a = false := by simpa using hp
      rw [hp']
      rw [← Bool.not_eq_true]
      intro hcon
      have hm := List.elem_iff.mp hcon
      rw [List.mem_filter, hp'] at hm
      cases hm.2
  rw [hiff]

lemma filterMap_pairs_snd (p : String → Bool) (g : String → String) :
    ∀ (l : List String),
    ((l.filterMap (fun n => if p n then some (g n, n) else none)).map Prod.snd) =
      l.filter p := by
  intro l
  induction l with
  | nil => rfl
  | cons x xs ih =>
    rw [List.filterMap_cons, List.filter_cons]
    by_cases hp : p x = true
    · rw [if_pos hp, hp]
      simp only [List.map_cons, if_true]
      rw [ih]
    · rw [if_neg hp]
      have : p x = false := by simpa using hp
      rw [this]
      simp only [Bool.false_eq_true, if_false]
      exact ih

lemma foldl_erase_pairs : ∀ (ds : List (String × String)) (acc : List String),
    ds.foldl (fun a sn => eraseFirst sn.2 a) acc =
      (ds.map Prod.snd).foldl (fun a n => eraseFirst n a) acc := by
  intro ds
  induction ds with
  | nil => intro acc; rfl
  | cons d rest ih =>
    intro acc
    simp only [List.foldl_cons, List.map_cons]
    exact ih _

lemma delete_ns_loop_spec : ∀ (ds : List (String × String)) (w : World) (tr : List Cmd),
    (∀ c, w.fails c = false) →
    (delete_ns_loop ds (w, tr)).1.fwd = w.fwd ∧
    (delete_ns_loop ds (w, tr)).1.links = w.links ∧
    (delete_ns_loop ds (w, tr)).1.fails = w.fails ∧
    (delete_ns_loop ds (w, tr)).1.netns =
      ds.foldl (fun acc sn => eraseFirst sn.2 acc) w.netns ∧
    (delete_ns_loop ds (w, tr)).2 =
      tr ++ ds.map (fun sn => ["ip", "netns", "delete", sn.2]) := by
  intro ds
  induction ds with
  | nil =>
    intro w tr hF
    exact ⟨rfl, rfl, rfl, rfl, by simp [delete_ns_loop]⟩
  | cons d rest ih =>
    intro w tr hF
    have hstep : runCmdNC w tr ["ip", "netns", "delete", d.2] =
        ({ w with
           netns := eraseFirst d.2 w.netns
           nsIn := fun m => if m = d.2 then [] else w.nsIn m },
          tr ++ [["ip", "netns", "delete", d.2]], "") := by
      simp [runCmdNC, execCmd, execOk, arg, hF]
    rw [show delete_ns_loop (d :: rest) (w, tr) =
      delete_ns_loop rest ((runCmdNC w tr ["ip", "netns", "delete", d.2]).1,
        (runCmdNC w tr ["ip", "netns", "delete", d.2]).2.1) from rfl]
    rw [hstep]
    have ih2 := ih ({ w with
        netns := eraseFirst d.2 w.netns
        nsIn := fun m => if m = d.2 then [] else w.nsIn m })
      (tr ++ [["ip", "netns", "delete", d.2]]) hF
    refine ⟨ih2.1, ih2.2.1, ih2.2.2.1, ?_, ?_⟩
    · rw [ih2.2.2.2.1]
      rfl
    · rw [ih2.2.2.2.2]
      simp

/-! ## Claim C8: derived-name uniqueness -/

/-- C8 counterexample: two distinct (vpc, subnet) pairs that share a subnet name
receive identical veth endpoint names, and two distinct pairs can even share the
derived namespace name when the vpc name contains a hyphen. -/
theorem c8_veth_name_collision :
    get_veth_pair_names ("a") ("web") = get_veth_pair_names ("b") ("web") ∧
    (("a" : String), ("web" : String)) ≠ (("b" : String), ("web" : String)) ∧
    get_namespace_name ("a-b") ("c") = get_namespace_name ("a") ("b-c") ∧
    (("a-b" : String), ("c" : String)) ≠ (("a" : String), ("b-c" : String)) :=
  ⟨rfl, by decide, rfl, by decide⟩

/-- C8 amended: bridge names are injective in the VPC name; namespace names are
injective in the (vpc, subnet) pair provided the VPC names contain no hyphen; the
veth endpoint names depend only on the subnet name, so they coincide exactly when
the subnet names coincide (distinct pairs sharing a subnet name collide). -/
theorem c8_name_derivation :
    ∀ v1 s1 v2 s2 : String,
    (get_bridge_name v1 = get_bridge_name v2 ↔ v1 = v2) ∧
    (get_veth_pair_names v1 s1 = get_veth_pair_names v2 s2 ↔ s1 = s2) ∧
    (('-') ∉ v1.data → ('-') ∉ v2.data →
      get_namespace_name v1 s1 = get_namespace_name v2 s2 → v1 = v2 ∧ s1 = s2) := by
  intro v1 s1 v2 s2
  refine ⟨?_, ?_, ?_⟩
  · constructor
    · intro h
      apply String.ext
      have := congrArg String.data h
      simp only [get_bridge_name, String.data_append] at this
      exact List.append_cancel_left this
    · intro h; rw [h]
  · constructor
    · intro h
      apply String.ext
      have := congrArg String.data (congrArg Prod.fst h)
      simp only [get_veth_pair_names, String.data_append, List.append_assoc] at this
      exact List.append_cancel_right (List.append_cancel_left this)
    · intro h; simp [get_veth_pair_names, h]
  · intro hv1 hv2 h
    have hd := congrArg String.data h
    simp only [get_namespace_name, String.data_append, List.append_assoc] at hd
    have hd' : v1.data ++ ('-') :: s1.data = v2.data ++ ('-') :: s2.data := by
      simpa using List.append_cancel_left hd
    obtain ⟨he, hr⟩ := append_sep_inj hv1 hv2 hd'
    exact ⟨String.ext he, String.ext hr⟩

/-- C8 witness: the amended statement instantiated at concrete names. -/
theorem c8_name_derivation_witness :
    ("alpha" : String) = ("alpha" : String) ∧ ("web" : String) = ("web" : String) :=
  ⟨((c8_name_derivation ("alpha") ("web") ("alpha") ("web")).1).mp rfl,
   (((c8_name_derivation ("beta") ("web") ("beta") ("web")).2.2
      (by decide) (by decide) rfl).2)⟩

/-! ## Claim C3 / C7: the address planner -/

/-- C3 counterexample: for the block 10.0.1.0/24 the planner returns 10.0.1.1 (the
network address plus one, i.e. the FIRST usable address) as the gateway; the second
usable address of that block is 10.0.1.2, so the gateway is not the second usable
address as claimed. -/
theorem c3_gateway_is_first_usable :
    ip_network ("10.0.1.0/24") = some ⟨167772416, 24⟩ ∧
    get_gateway_ip ("10.0.1.0/24") =
      .ok (("10.0.1.1"), ("10.0.1.2"), ("10.0.1.1/24"), ("10.0.1.2/24")) ∧
    usableAddr ⟨167772416, 24⟩ 2 = some (167772416 + 2) ∧
    ("10.0.1.1" : String) ≠ ipToString (167772416 + 2) :=
  ⟨by decide, rfl, by decide, by decide⟩

/-- C3 amended: for every CIDR block accepted by the planner, the returned
gateway_address and host_address are the FIRST and SECOND usable addresses of the
block (network address + 1 and + 2), both lying strictly inside the block; a block
too small to supply both (fewer than three addresses) is rejected with exit(1).
(The no-kernel-mutation part of the claim is proved with `create_subnet` below.) -/
theorem c3_planner_addresses :
    (∀ cidr nw, ip_network cidr = some nw → 3 ≤ blockSize nw →
      usableAddr nw 1 = some (nw.addr + 1) ∧
      usableAddr nw 2 = some (nw.addr + 2) ∧
      get_gateway_ip cidr = .ok (ipToString (nw.addr + 1), ipToString (nw.addr + 2),
        ipToString (nw.addr + 1) ++ "/" ++ toString nw.prefixlen,
        ipToString (nw.addr + 2) ++ "/" ++ toString nw.prefixlen) ∧
      nw.addr < nw.addr + 1 ∧ nw.addr + 2 < nw.addr + (blockSize nw - 1)) ∧
    (∀ cidr nw, ip_network cidr = some nw → blockSize nw < 3 →
      get_gateway_ip cidr = .error (.systemExit 1)) ∧
    (∀ (w : World) (v s cidr ty : String) (ifc : Option String),
      get_gateway_ip cidr = .error (.systemExit 1) →
      create_subnet w v s cidr ty ifc = (w, [], .exited 1)) := by
  refine ⟨?_, ?_, ?_⟩
  · intro cidr nw hp hs
    have h4 : 4 ≤ blockSize nw := pow2_ge_four hs
    have h1 : netAddr nw 1 = some (nw.addr + 1) := by
      simp only [netAddr, if_pos (by omega : 1 < blockSize nw)]
    have h2 : netAddr nw 2 = some (nw.addr + 2) := by
      simp only [netAddr, if_pos (by omega : 2 < blockSize nw)]
    refine ⟨h1, h2, ?_, by omega, by omega⟩
    simp only [get_gateway_ip, hp, h1, h2]
  · intro cidr nw hp hs
    have h2 : netAddr nw 2 = none := by
      simp only [netAddr, if_neg (by omega : ¬ 2 < blockSize nw)]
    simp only [get_gateway_ip, hp, h2]
    cases h1 : netAddr nw 1 <;> rfl
  · intro w v s cidr ty ifc herr
    by_cases hty : ty = "public" ∧ ifc = none
    · simp [create_subnet, hty]
    · simp [create_subnet, hty, herr]

/-- C3 witness: all parts of the amended statement applied at concrete blocks. -/
theorem c3_planner_addresses_witness :
    (usableAddr ⟨167772416, 24⟩ 1 = some (167772416 + 1) ∧
      get_gateway_ip ("10.0.1.0/24") =
        .ok (ipToString (167772416 + 1), ipToString (167772416 + 2),
          ipToString (167772416 + 1) ++ "/" ++ toString (24 : Nat),
          ipToString (167772416 + 2) ++ "/" ++ toString (24 : Nat))) ∧
    get_gateway_ip ("10.0.1.0/31") = .error (.systemExit 1) ∧
    create_subnet {} ("v") ("s") ("10.0.1.0/31") ("private") none =
      ({}, [], .exited 1) := by
  have h1 := (c3_planner_addresses.1) ("10.0.1.0/24") ⟨167772416, 24⟩ (by decide) (by decide)
  have h2 := (c3_planner_addresses.2.1) ("10.0.1.0/31") ⟨167772416, 31⟩ (by decide) (by decide)
  have h3 := (c3_planner_addresses.2.2) {} ("v") ("s") ("10.0.1.0/31") ("private") none h2
  exact ⟨⟨h1.1, h1.2.2.1⟩, h2, h3⟩

/-- C7 confirmed: for every CIDR the planner accepts whose block has at least 4
usable addresses, the gateway and host address lie strictly inside the block, the
gateway numerically precedes the host, and both differ from the network and
broadcast addresses. -/
theorem c7_planner_bounds (cidr : String) (nw : IPv4Network)
    (hp : ip_network cidr = some nw) (hu : 4 ≤ blockSize nw - 1) :
    ∃ g h, netAddr nw 1 = some g ∧ netAddr nw 2 = some h ∧
      get_gateway_ip cidr = .ok (ipToString g, ipToString h,
        ipToString g ++ "/" ++ toString nw.prefixlen,
        ipToString h ++ "/" ++ toString nw.prefixlen) ∧
      g < h ∧ nw.addr < g ∧ h < nw.addr + (blockSize nw - 1) ∧
      g ≠ nw.addr ∧ h ≠ nw.addr ∧
      g ≠ nw.addr + (blockSize nw - 1) ∧ h ≠ nw.addr + (blockSize nw - 1) := by
  have h1 : netAddr nw 1 = some (nw.addr + 1) := by
    simp only [netAddr, if_pos (by omega : 1 < blockSize nw)]
  have h2 : netAddr nw 2 = some (nw.addr + 2) := by
    simp only [netAddr, if_pos (by omega : 2 < blockSize nw)]
  refine ⟨nw.addr + 1, nw.addr + 2, h1, h2, ?_, by omega, by omega, by omega,
    by omega, by omega, by omega, by omega⟩
  simp only [get_gateway_ip, hp, h1, h2]

/-- C7 witness: the bound statement applied at `10.0.0.0/16`. -/
theorem c7_planner_bounds_witness :
    ∃ g h, netAddr ⟨167772160, 16⟩ 1 = some g ∧ netAddr ⟨167772160, 16⟩ 2 = some h ∧
      get_gateway_ip ("10.0.0.0/16") = .ok (ipToString g, ipToString h,
        ipToString g ++ "/" ++ toString (16 : Nat),
        ipToString h ++ "/" ++ toString (16 : Nat)) ∧
      g < h ∧ 167772160 < g ∧ h < 167772160 + (blockSize ⟨167772160, 16⟩ - 1) ∧
      g ≠ 167772160 ∧ h ≠ 167772160 ∧
      g ≠ 167772160 + (blockSize ⟨167772160, 16⟩ - 1) ∧
      h ≠ 167772160 + (blockSize ⟨167772160, 16⟩ - 1) :=
  c7_planner_bounds ("10.0.0.0/16") ⟨167772160, 16⟩ (by decide) (by decide)

/-! ## Claims C1, C2, C6: create_vpc -/

/-- C1: when a kernel command fails after the bridge device has been created
(here: bringing the bridge up), `run_cmd` calls `sys.exit(1)`; the raised
`SystemExit` is not an `Exception`, so the `except Exception` rollback handler of
`create_vpc` never runs: the process exits 1 with no `ip link set ... down` and no
`ip link delete` issued, and the bridge device is left behind — contradicting the
claimed (and spec §4.3 documented) rollback. -/
theorem c1_rollback_never_runs :
    (create_vpc faultyUpWorld ("alpha")).2.2 = .exited 1 ∧
    ["ip", "link", "set", "dev", "br-alpha", "down"] ∉ (create_vpc faultyUpWorld ("alpha")).2.1 ∧
    ["ip", "link", "delete", "dev", "br-alpha", "type", "bridge"] ∉
      (create_vpc faultyUpWorld ("alpha")).2.1 ∧
    "br-alpha" ∈ (create_vpc faultyUpWorld ("alpha")).1.links ∧
    (create_vpc faultyUpWorld ("alpha")).2.1 =
      [["ip", "-br", "link", "show", "dev", "br-alpha"],
       ["ip", "link", "add", "name", "br-alpha", "type", "bridge"],
       ["ip", "link", "set", "dev", "br-alpha", "up"]] := by
  refine ⟨rfl, by decide, by decide, by decide, rfl⟩

/-- C2 counterexample: on an initially empty FORWARD chain, after `create-vpc alpha`
the accept rule sits at index 2, strictly after both drop rules (indices 1 and 0):
head insertion reverses the issue order, so the accept rule is NOT positioned
before the two catch-all drops. -/
theorem c2_accept_sits_after_drops :
    (create_vpc {} ("alpha")).1.fwd =
      [vpcDropInRule ("br-alpha"), vpcDropOutRule ("br-alpha"), vpcAcceptRule ("br-alpha")] ∧
    ¬ ((create_vpc {} ("alpha")).1.fwd.findIdx (fun r => decide (r = vpcAcceptRule ("br-alpha"))) <
       (create_vpc {} ("alpha")).1.fwd.findIdx
         (fun r => decide (r = vpcDropOutRule ("br-alpha")))) ∧
    ¬ ((create_vpc {} ("alpha")).1.fwd.findIdx (fun r => decide (r = vpcAcceptRule ("br-alpha"))) <
       (create_vpc {} ("alpha")).1.fwd.findIdx
         (fun r => decide (r = vpcDropInRule ("br-alpha")))) := by
  refine ⟨by decide, by decide, by decide⟩

/-- C2 amended: after `create-vpc` on a forward chain it alone has modified, its
three rules sit at the head in the order (c) drop anything-else→bridge, (b) drop
bridge→anything-else, (a) accept bridge→bridge — the accept comes after both drops
because each rule is inserted at the head of the chain. The three matches are
pairwise disjoint, so under top-to-bottom evaluation an intra-VPC (bridge→bridge)
packet still reaches the accept rule: neither drop matches it. -/
theorem c2_intra_vpc_traffic_accepted (w : World) (v : String) (p : Packet)
    (hF : ∀ c, w.fails c = false) (hB : get_bridge_name v ∉ w.links) :
    (create_vpc w v).1.fwd =
      vpcDropInRule (get_bridge_name v) :: vpcDropOutRule (get_bridge_name v) ::
        vpcAcceptRule (get_bridge_name v) :: w.fwd ∧
    (p.inIf = get_bridge_name v → p.outIf = get_bridge_name v →
      evalFwd ((create_vpc w v).1.fwd) p = some ("ACCEPT")) := by
  have hfr := create_vpc_fresh w v hF hB
  constructor
  · rw [hfr]
  · intro hin hout
    rw [hfr]
    simp [evalFwd, List.find?, ruleMatches, ifaceMatch, vpcAcceptRule, vpcDropOutRule,
      vpcDropInRule, mkFwd, hin, hout]

/-- C2 witness: the amended statement at a concrete world and packet. -/
theorem c2_intra_vpc_traffic_accepted_witness :
    (create_vpc {} ("gamma")).1.fwd =
      vpcDropInRule (get_bridge_name ("gamma")) :: vpcDropOutRule (get_bridge_name ("gamma")) ::
        vpcAcceptRule (get_bridge_name ("gamma")) :: [] ∧
    evalFwd ((create_vpc {} ("gamma")).1.fwd)
      { inIf := "br-gamma", outIf := "br-gamma" } = some ("ACCEPT") := by
  have h := c2_intra_vpc_traffic_accepted {} ("gamma")
    { inIf := "br-gamma", outIf := "br-gamma" } (fun _ => rfl) (by decide)
  exact ⟨h.1, h.2 rfl rfl⟩

/-- C6 confirmed: `create-vpc` twice with the same name — when the first call (no
injected failures, bridge absent) succeeds, the second call finds the bridge name
in the `ip -br link show` output, issues no further command (its trace is the
single read-only probe), performs no kernel mutation (the world is returned
unchanged) and completes without error. -/
theorem c6_create_vpc_idempotent (w : World) (v : String)
    (hF : ∀ c, w.fails c = false) (hB : get_bridge_name v ∉ w.links) :
    (create_vpc w v).2.2 = .ok ∧
    create_vpc (create_vpc w v).1 v =
      ((create_vpc w v).1, [["ip", "-br", "link", "show", "dev", get_bridge_name v]], .ok) := by
  have hfr := create_vpc_fresh w v hF hB
  constructor
  · rw [hfr]
  · rw [hfr]
    have hmem : get_bridge_name v ∈ get_bridge_name v :: w.links := List.mem_cons_self _ _
    simp [create_vpc, runCmdNC, execCmd, execOk, arg, hF, hmem, pyIn_self_append]

/-- C6 witness: idempotence at a concrete name on the empty world. -/
theorem c6_create_vpc_idempotent_witness :
    (create_vpc {} ("alpha")).2.2 = .ok ∧
    create_vpc (create_vpc {} ("alpha")).1 ("alpha") =
      ((create_vpc {} ("alpha")).1,
        [["ip", "-br", "link", "show", "dev", get_bridge_name ("alpha")]], .ok) :=
  c6_create_vpc_idempotent {} ("alpha") (fun _ => rfl) (by decide)

/-! ## Claim C5: create_subnet gating -/

/-- C5 counterexample: no namespace with the derived name `ns-v-s` exists, yet
`create_subnet` returns as a no-op (issuing only the read-only listing) because the
existence probe is a substring test and the listing holds `ns-v-sfoo`.  So the
creation sequence is NOT performed exactly when no namespace with the derived name
exists. -/
theorem c5_substring_probe_false_positive :
    get_namespace_name ("v") ("s") ∉ superstringNsWorld.netns ∧
    create_subnet superstringNsWorld ("v") ("s") ("10.0.1.0/24") ("private") none =
      (superstringNsWorld, [["ip", "netns", "list"]], .ok) :=
  ⟨by decide, rfl⟩

set_option maxHeartbeats 1600000 in
/-- C5 amended: `create-subnet` no-ops (only the read-only `ip netns list`, outcome
ok) exactly when the derived name `ns-<vpc>-<subnet>` occurs as a SUBSTRING of the
namespace listing (so a namespace whose name merely extends the derived name also
triggers the no-op); otherwise — for well-formed inputs on a healthy kernel — it
proceeds to create the namespace, veth pair, addressing, routing, and the firewall
defaults. -/
theorem c5_create_subnet_gating (w : World) (v s cidr ty : String) (ifc : Option String)
    (g i2 gp ip2 : String)
    (hF : ∀ c, w.fails c = false)
    (hty : ¬ (ty = "public" ∧ ifc = none))
    (hg : get_gateway_ip cidr = .ok (g, i2, gp, ip2))
    (hbr : get_bridge_name v ∈ w.links)
    (haddr : w.addrs (get_bridge_name v) = [])
    (hv1 : ("veth-" ++ s ++ "-ns") ∉ w.links) (hv2 : ("veth-" ++ s ++ "-br") ∉ w.links) :
    (pyIn (get_namespace_name v s) ⟨joinNl w.netns⟩ = true →
      create_subnet w v s cidr ty ifc = (w, [["ip", "netns", "list"]], .ok)) ∧
    (pyIn (get_namespace_name v s) ⟨joinNl w.netns⟩ = false →
      (create_subnet w v s cidr ty ifc).2.2 = .ok ∧
      get_namespace_name v s ∈ (create_subnet w v s cidr ty ifc).1.netns ∧
      (create_subnet w v s cidr ty ifc).1.nsIn (get_namespace_name v s) =
        [mkNs (some ("lo")) none none none ("ACCEPT"),
         mkNs none (some ("RELATED,ESTABLISHED")) none none ("ACCEPT")] ∧
      ["ip", "netns", "add", get_namespace_name v s] ∈ (create_subnet w v s cidr ty ifc).2.1 ∧
      ["ip", "link", "add", "veth-" ++ s ++ "-ns", "type", "veth", "peer", "name",
        "veth-" ++ s ++ "-br"] ∈ (create_subnet w v s cidr ty ifc).2.1 ∧
      ["ip", "addr", "add", gp, "dev", get_bridge_name v] ∈
        (create_subnet w v s cidr ty ifc).2.1 ∧
      ["ip", "netns", "exec", get_namespace_name v s, "ip", "addr", "add", ip2, "dev",
        "veth-" ++ s ++ "-ns"] ∈ (create_subnet w v s cidr ty ifc).2.1 ∧
      ["ip", "netns", "exec", get_namespace_name v s, "ip", "route", "add", "default",
        "via", g] ∈ (create_subnet w v s cidr ty ifc).2.1) := by
  constructor
  · intro hin
    simp [create_subnet, runCmdNC, execCmd, execOk, arg, hF, hty, hg, hin]
  · intro hout
    have hnm : get_namespace_name v s ∉ w.netns := not_mem_of_not_pyIn hout
    obtain ⟨gn, hgn⟩ := get_gateway_ip_ok_shape hg
    have hge : pyIn g (String.mk []) = false := by
      refine pyIn_of_nonempty_nil _ ?_ _ rfl
      rw [hgn]; exact ipToString_data_ne_nil gn
    by_cases hpub : ty = "public"
    · obtain ⟨i0, hi0⟩ : ∃ i0, ifc = some i0 := by
        cases hifc : ifc with
        | none => exact absurd ⟨hpub, hifc⟩ hty
        | some x => exact ⟨x, rfl⟩
      subst hpub
      subst hi0
      simp [create_subnet, create_subnet_steps, runCmd, runCmdNC, execCmd, execOk, execIpt,
        execInNs, arg, hF, hg, hout, hnm, hge, hbr, haddr, hv1, hv2, joinSp,
        get_veth_pair_names, Bind.bind, Except.bind, Pure.pure, Except.pure, List.insertIdx]
    · simp [create_subnet, create_subnet_steps, runCmd, runCmdNC, execCmd, execOk, execIpt,
        execInNs, arg, hF, hty, hpub, hg, hout, hnm, hge, hbr, haddr, hv1, hv2, joinSp,
        get_veth_pair_names, Bind.bind, Except.bind, Pure.pure, Except.pure, List.insertIdx]

/-- C5 witness: both directions of the gating statement at concrete inputs — the
no-op on `superstringNsWorld` and a performed creation on a fresh world. -/
theorem c5_create_subnet_gating_witness :
    create_subnet superstringNsWorld ("v") ("s") ("10.0.1.0/24") ("private") none =
      (superstringNsWorld, [["ip", "netns", "list"]], .ok) ∧
    (create_subnet { links := ["br-v"] } ("v") ("web") ("10.0.1.0/24") ("private")
        none).2.2 = .ok ∧
    get_namespace_name ("v") ("web") ∈
      (create_subnet { links := ["br-v"] } ("v") ("web") ("10.0.1.0/24") ("private")
        none).1.netns := by
  have h1 := (c5_create_subnet_gating superstringNsWorld ("v") ("s") ("10.0.1.0/24")
    ("private") none ("10.0.1.1") ("10.0.1.2") ("10.0.1.1/24") ("10.0.1.2/24")
    (fun _ => rfl) (by decide) rfl (by decide) rfl (by decide) (by decide)).1 (by decide)
  have h2 := (c5_create_subnet_gating { links := ["br-v"] } ("v") ("web") ("10.0.1.0/24")
    ("private") none ("10.0.1.1") ("10.0.1.2") ("10.0.1.1/24") ("10.0.1.2/24")
    (fun _ => rfl) (by decide) rfl (by decide) rfl (by decide) (by decide)).2 (by decide)
  exact ⟨h1, h2.1, h2.2.1⟩

/-! ## Claims C9, C10: apply_rules -/

/-- C9 confirmed: on a healthy namespace, `apply-rules` skips every ingress rule
with a missing port/protocol/action key or an action outside {accept, deny}
(case-insensitive), does not fail the whole operation (outcome ok), and the issued
inserts are exactly those of the remaining valid rules, in policy order. -/
theorem c9_invalid_rules_skipped (w : World) (pol : SecurityPolicy)
    (hF : ∀ c, w.fails c = false)
    (hNs : get_namespace_name pol.vpc pol.subnet ∈ w.netns)
    (hLen : 2 ≤ (w.nsIn (get_namespace_name pol.vpc pol.subnet)).length) :
    (apply_rules w pol).2.2 = .ok ∧
    (apply_rules w pol).2.1 =
      (pol.ingress.filter validRule).map (cmdOf (get_namespace_name pol.vpc pol.subnet)) ∧
    (apply_rules w pol).1.nsIn (get_namespace_name pol.vpc pol.subnet) =
      (pol.ingress.filter validRule).foldl (fun ch r => ch.insertIdx 2 (nsRuleOf r))
        (w.nsIn (get_namespace_name pol.vpc pol.subnet)) := by
  have h := apply_rules_loop_spec (get_namespace_name pol.vpc pol.subnet) pol.ingress w []
    hF hNs hLen
  exact ⟨h.1, by simpa using h.2.1, h.2.2.1⟩

/-- C9 witness: the mixed policy on the concrete rules world — the reject-action
rule and the missing-port rule are skipped, both valid rules are applied. -/
theorem c9_invalid_rules_skipped_witness :
    (apply_rules rulesWorld polMixed).2.2 = .ok ∧
    (apply_rules rulesWorld polMixed).2.1 =
      (polMixed.ingress.filter validRule).map (cmdOf (get_namespace_name ("a") ("web"))) ∧
    (polMixed.ingress.filter validRule).length = 2 := by
  have h := c9_invalid_rules_skipped rulesWorld polMixed (fun _ => rfl) (by decide) (by decide)
  exact ⟨h.1, h.2.1, by decide⟩

/-- C10 confirmed: every valid ingress rule is inserted at position 3 of the
namespace INPUT chain (right after the loopback-accept and established-accept
defaults), so on a chain holding exactly the two defaults the final order of the
custom rules is the REVERSE of their order in the policy, and the rule at position
3 — the first custom rule reached under top-to-bottom first-match evaluation — is
the LAST rule listed in the policy. -/
theorem c10_insert_position_reverses_order (w : World) (pol : SecurityPolicy)
    (hF : ∀ c, w.fails c = false)
    (hNs : get_namespace_name pol.vpc pol.subnet ∈ w.netns)
    (hChain : w.nsIn (get_namespace_name pol.vpc pol.subnet) = [loRule, estRule])
    (hValid : ∀ r ∈ pol.ingress, validRule r = true) :
    (apply_rules w pol).1.nsIn (get_namespace_name pol.vpc pol.subnet) =
      loRule :: estRule :: (pol.ingress.map nsRuleOf).reverse ∧
    ((apply_rules w pol).1.nsIn (get_namespace_name pol.vpc pol.subnet)).get? 2 =
      (pol.ingress.map nsRuleOf).getLast? := by
  have h := apply_rules_loop_spec (get_namespace_name pol.vpc pol.subnet) pol.ingress w []
    hF hNs (by rw [hChain]; decide)
  have hfe : pol.ingress.filter validRule = pol.ingress := List.filter_eq_self.mpr hValid
  have hchain2 : (apply_rules w pol).1.nsIn (get_namespace_name pol.vpc pol.subnet) =
      loRule :: estRule :: ((pol.ingress.map nsRuleOf).reverse ++ []) := by
    have hthis := h.2.2.1
    rw [hfe, hChain] at hthis
    simp only [apply_rules]
    rw [hthis, foldl_insertIdx_two loRule estRule pol.ingress []]
  have hlast : ∀ (xs : List NsRule),
      (loRule :: estRule :: (xs.reverse ++ [])).get? 2 = xs.getLast? := by
    intro xs
    simp [← List.head?_reverse, List.head?_eq_getElem?]
  constructor
  · simpa using hchain2
  · rw [hchain2, hlast (pol.ingress.map nsRuleOf)]

/-- C10 witness: two valid rules — the second-listed rule ends up at position 3,
ahead of the first-listed one. -/
theorem c10_insert_position_reverses_order_witness :
    (apply_rules rulesWorld polTwo).1.nsIn (get_namespace_name ("a") ("web")) =
      loRule :: estRule :: (polTwo.ingress.map nsRuleOf).reverse ∧
    ((apply_rules rulesWorld polTwo).1.nsIn (get_namespace_name ("a") ("web"))).get? 2 =
      (polTwo.ingress.map nsRuleOf).getLast? :=
  c10_insert_position_reverses_order rulesWorld polTwo (fun _ => rfl) (by decide) (by decide)
    (by decide)

/-! ## Claim C4: delete_vpc -/

/-- C4 counterexample: `delete_vpc` on a world holding a peering rule that
references the VPC's bridge (accept br-a→br-b) deletes the namespace, the three
isolation rules and the bridge, but the peering rule survives: the peering-cleanup
step is an unimplemented placeholder. -/
theorem c4_peering_rule_survives :
    (mkFwd (some ("br-a")) false (some ("br-b")) false ("ACCEPT")).inIf = some ("br-a") ∧
    mkFwd (some ("br-a")) false (some ("br-b")) false ("ACCEPT") ∈
      (delete_vpc peeredWorld ("a")).1.fwd ∧
    (delete_vpc peeredWorld ("a")).1.fwd =
      [mkFwd (some ("br-a")) false (some ("br-b")) false ("ACCEPT")] ∧
    (delete_vpc peeredWorld ("a")).1.netns = [] ∧
    (delete_vpc peeredWorld ("a")).1.links = [] ∧
    (delete_vpc peeredWorld ("a")).2.2 = .ok :=
  ⟨rfl, by decide, by decide, by decide, by decide, by decide⟩

/-- C4 amended: `delete-vpc` deletes the discovered subnet namespaces (those whose
name starts with `ns-<vpc>-`), removes the three VPC isolation filter rules
(first occurrence each, best-effort), brings the bridge down and deletes it — but
its peering-rule cleanup is an unimplemented placeholder that issues no command,
so every FORWARD rule other than the three isolation rules, including peering
rules referencing the bridge, is left in place. -/
theorem c4_delete_vpc_scope (w : World) (v : String)
    (hF : ∀ c, w.fails c = false) (hnd : w.netns.Nodup)
    (hcl : ∀ n ∈ w.netns, cleanName n) :
    (delete_vpc w v).2.2 = .ok ∧
    (delete_vpc w v).1.netns =
      w.netns.filter (fun n => !((("ns-" ++ v ++ "-").data).isPrefixOf n.data)) ∧
    (delete_vpc w v).1.fwd =
      eraseFirst (vpcDropInRule (get_bridge_name v))
        (eraseFirst (vpcDropOutRule (get_bridge_name v))
          (eraseFirst (vpcAcceptRule (get_bridge_name v)) w.fwd)) ∧
    (∀ r ∈ w.fwd, r ≠ vpcAcceptRule (get_bridge_name v) →
      r ≠ vpcDropOutRule (get_bridge_name v) → r ≠ vpcDropInRule (get_bridge_name v) →
      r ∈ (delete_vpc w v).1.fwd) ∧
    (delete_vpc w v).1.links = eraseFirst (get_bridge_name v) w.links ∧
    ["ip", "link", "set", "dev", get_bridge_name v, "down"] ∈ (delete_vpc w v).2.1 := by
  have hlist : runCmd true w [] ["ip", "netns", "list"] =
      .ok (w, [["ip", "netns", "list"]], ⟨joinNl w.netns⟩) := by
    simp [runCmd, execCmd, execOk, arg, hF]
  have hfind : find_subnets_for_vpc w [] v =
      .ok (w, [["ip", "netns", "list"]], parse_netns_lines v ⟨joinNl w.netns⟩) := by
    simp [find_subnets_for_vpc, hlist, Bind.bind, Except.bind, Pure.pure, Except.pure]
  obtain ⟨hfwd, hlinks, hfails, hnetns, htr⟩ :=
    delete_ns_loop_spec (parse_netns_lines v ⟨joinNl w.netns⟩) w [["ip", "netns", "list"]] hF
  have hFl : ∀ c, (delete_ns_loop (parse_netns_lines v ⟨joinNl w.netns⟩)
      (w, [["ip", "netns", "list"]])).1.fails c = false := fun c => by
    rw [hfails]; exact hF c
  have hnet : (delete_ns_loop (parse_netns_lines v ⟨joinNl w.netns⟩)
      (w, [["ip", "netns", "list"]])).1.netns =
      w.netns.filter (fun n => !((("ns-" ++ v ++ "-").data).isPrefixOf n.data)) := by
    rw [hnetns, foldl_erase_pairs, parse_netns_lines_joinNl v hcl,
      filterMap_pairs_snd (fun n => (("ns-" ++ v ++ "-").data).isPrefixOf n.data)
        (fun n => ⟨n.data.drop (("ns-" ++ v ++ "-").data).length⟩),
      foldl_eraseFirst_eq_filter _ hnd, filter_not_contains_filter]
  have hrun : delete_vpc w v =
      ({ links := eraseFirst (get_bridge_name v)
           (delete_ns_loop (parse_netns_lines v ⟨joinNl w.netns⟩)
             (w, [["ip", "netns", "list"]])).1.links
         netns := (delete_ns_loop (parse_netns_lines v ⟨joinNl w.netns⟩)
           (w, [["ip", "netns", "list"]])).1.netns
         fwd := eraseFirst (vpcDropInRule (get_bridge_name v))
           (eraseFirst (vpcDropOutRule (get_bridge_name v))
             (eraseFirst (vpcAcceptRule (get_bridge_name v))
               (delete_ns_loop (parse_netns_lines v ⟨joinNl w.netns⟩)
                 (w, [["ip", "netns", "list"]])).1.fwd))
         addrs := (delete_ns_loop (parse_netns_lines v ⟨joinNl w.netns⟩)
           (w, [["ip", "netns", "list"]])).1.addrs
         nsIn := (delete_ns_loop (parse_netns_lines v ⟨joinNl w.netns⟩)
           (w, [["ip", "netns", "list"]])).1.nsIn
         fails := (delete_ns_loop (parse_netns_lines v ⟨joinNl w.netns⟩)
           (w, [["ip", "netns", "list"]])).1.fails },
        (delete_ns_loop (parse_netns_lines v ⟨joinNl w.netns⟩)
          (w, [["ip", "netns", "list"]])).2 ++
          [["iptables", "-D", "FORWARD", "-i", get_bridge_name v, "-o", get_bridge_name v,
             "-j", "ACCEPT"],
           ["iptables", "-D", "FORWARD", "-i", get_bridge_name v, "!", "-o",
             get_bridge_name v, "-j", "DROP"],
           ["iptables", "-D", "FORWARD", "-o", get_bridge_name v, "!", "-i",
             get_bridge_name v, "-j", "DROP"],
           ["ip", "link", "set", "dev", get_bridge_name v, "down"],
           ["ip", "link", "delete", "dev", get_bridge_name v, "type", "bridge"]], .ok) := by
    simp [delete_vpc, hfind, runCmdNC, execCmd, execOk, execIpt, arg, hFl,
      delete_all_peering_for_vpc, eraseFwd, vpcAcceptRule, vpcDropOutRule, vpcDropInRule]
  refine ⟨by rw [hrun], ?_, ?_, ?_, ?_, ?_⟩
  · rw [hrun]
    exact hnet
  · rw [hrun]
    show eraseFirst _ (eraseFirst _ (eraseFirst _ _)) = _
    rw [hfwd]
  · intro r hr h1 h2 h3
    rw [hrun]
    show r ∈ eraseFirst _ (eraseFirst _ (eraseFirst _ _))
    rw [hfwd]
    exact mem_eraseFirst_of_ne h3 (mem_eraseFirst_of_ne h2 (mem_eraseFirst_of_ne h1 hr))
  · rw [hrun]
    show eraseFirst _ _ = _
    rw [hlinks]
  · rw [hrun]
    simp

/-- C4 witness: the amended statement applied at the concrete peered world. -/
theorem c4_delete_vpc_scope_witness :
    (delete_vpc peeredWorld ("a")).2.2 = .ok ∧
    (delete_vpc peeredWorld ("a")).1.netns =
      peeredWorld.netns.filter
        (fun n => !((("ns-" ++ "a" ++ "-").data).isPrefixOf n.data)) ∧
    mkFwd (some ("br-a")) false (some ("br-b")) false ("ACCEPT") ∈
      (delete_vpc peeredWorld ("a")).1.fwd := by
  have h := c4_delete_vpc_scope peeredWorld ("a") (fun _ => rfl) (by decide) ?_
  · refine ⟨h.1, h.2.1, ?_⟩
    refine h.2.2.2.1 _ (by decide) (by decide) (by decide) (by decide)
  · intro n hn
    have hn' : n = "ns-a-web" := by simpa [peeredWorld] using hn
    subst hn'
    exact ⟨by decide, by decide⟩

end Vpcctl
